import Mathlib

/-!
Verification development for the tiered memory engine
(memory service, lifecycle manager, consolidator, evolver, tier cache).

Modelling conventions:
* JavaScript numbers are modelled as exact rationals (`ℚ`); the transcendental
  library calls `Math.exp` and `Math.sqrt` are abstracted as function
  parameters of the environment `Env`, since every claim under study is
  independent of their concrete values (theorems carry explicit bounds on
  them where needed).
* The special JavaScript value `NaN` (and the infinities) produced by
  division are modelled explicitly by the type `JSNum` at the two places the
  code can produce them (`averageImportance`, cache hit rates).
* The external vector store is modelled as one list of records per tier
  collection; `insert` appends, `delete` by id filters, `query` with an empty
  expression returns the whole collection, and the similarity `search` is
  modelled by an environment-supplied ranking function of which at most
  `limit` leading elements are returned.
* `crypto.randomUUID()` is modelled as an environment-supplied injective-by-
  intent supply of identifiers indexed by a counter carried in the state.
* Stateful methods become explicit state-passing functions; methods that can
  throw return `Except String`.
-/

namespace AivyMemory

/-- A JavaScript number that may be `NaN` or infinite, as produced by
unguarded division. All other arithmetic in the model stays in `ℚ`. -/
inductive JSNum where
  | nan : JSNum
  | posInf : JSNum
  | negInf : JSNum
  | val : ℚ → JSNum
deriving DecidableEq, Repr

/-- JavaScript division `a / b`: `0/0 = NaN`, `a/0 = ±Infinity` for `a ≠ 0`,
otherwise the exact quotient. -/
def jsDivQ (a b : ℚ) : JSNum :=
  if b = 0 then (if a = 0 then .nan else if 0 < a then .posInf else .negInf)
  else .val (a / b)

/-- JavaScript comparison `x < q` for a possibly-NaN left operand
(`NaN < q` is `false`). -/
def jsLtQ : JSNum → ℚ → Bool
  | .nan, _ => false
  | .posInf, _ => false
  | .negInf, _ => true
  | .val a, b => a < b

/-- JavaScript comparison `x > q` for a possibly-NaN left operand
(`NaN > q` is `false`). -/
def jsGtQ : JSNum → ℚ → Bool
  | .nan, _ => false
  | .posInf, _ => true
  | .negInf, _ => false
  | .val a, b => b < a

/-- The three memory tiers (`MemoryTierType` in `memory-schemas.ts`). -/
inductive MemoryTierType where
  | core : MemoryTierType
  | active : MemoryTierType
  | background : MemoryTierType
deriving DecidableEq, Repr

/-- One entry of `metadata.evolutionHistory`, appended by
`MemoryEvolution.computeEvolutionResult`. -/
structure EvolutionEvent where
  timestamp : ℚ
  agingFactor : ℚ
  reinforcementScore : ℚ
  importanceChange : ℚ
deriving DecidableEq, Repr

/-- The `metadata.compression` annotation written by
`MemoryCompression.compressMemory`. -/
structure CompressionInfo where
  originalSize : ℕ
  compressedSize : ℕ
  compressionRatio : ℚ
deriving DecidableEq, Repr

/-- The metadata fields of a memory that the studied code paths read or
write. `userId` models the nested `metadata.userContext.userId` (the only
owner identifier attached to a stored memory). -/
structure MemoryMetadata where
  emotional_value : Option ℚ := none
  context_relevance : Option ℚ := none
  userId : Option String := none
  lastEvolution : Option ℚ := none
  evolutionHistory : List EvolutionEvent := []
  compression : Option CompressionInfo := none
deriving DecidableEq, Repr

/-- The `Memory` record of `memory-service.ts`. -/
structure Memory where
  id : String
  content : String
  embedding : List ℚ
  timestamp : ℚ
  tierType : MemoryTierType
  importance : ℚ
  lastAccessed : ℚ
  accessCount : ℚ
  metadata : MemoryMetadata
deriving DecidableEq, Repr

instance : Inhabited Memory :=
  ⟨{ id := "", content := "", embedding := [], timestamp := 0,
     tierType := .background, importance := 0, lastAccessed := 0,
     accessCount := 0, metadata := {} }⟩

/-- The ambient environment: the clock, the abstracted transcendental
functions, the UUID supply, and the vector store's similarity ranking. -/
structure Env where
  now : ℚ
  exp : ℚ → ℚ
  sqrtQ : ℚ → ℚ
  uuid : ℕ → String
  rank : List Memory → String → List Memory
  serializedLen : Memory → ℕ
  deflateBlob : Memory → String

/-- `MemoryCompression.compressMemory`: memories whose serialized form is
below `minSizeForCompression` (1024 with the deployed configuration) are
returned unchanged; larger ones get their content replaced by the deflated
blob and a `metadata.compression` annotation. Every other field is kept. -/
def compressMemory (env : Env) (m : Memory) : Memory :=
  let s := env.serializedLen m
  if s < 1024 then m
  else
    let blob := env.deflateBlob m
    { m with
      content := blob,
      metadata := { m.metadata with
        compression := some ⟨s, blob.length, (blob.length : ℚ) / (s : ℚ)⟩ } }

/-- The vector-store and cache state held behind `MemoryService`:
one list per tier collection (`memory_core`, `memory_active`,
`memory_background`), the id-keyed LRU cache entries (most recent first),
and the UUID counter. -/
structure ServiceState where
  coreC : List Memory
  activeC : List Memory
  backgroundC : List Memory
  cache : List (String × Memory)
  nextUuid : ℕ
deriving DecidableEq, Repr

/-- The records of the collection `memory_<tier>`. -/
def getCollection (st : ServiceState) : MemoryTierType → List Memory
  | .core => st.coreC
  | .active => st.activeC
  | .background => st.backgroundC

/-- `milvusClient.insert` into `memory_<tier>`: appends the record. -/
def insertMemory (st : ServiceState) (tier : MemoryTierType) (m : Memory) :
    ServiceState :=
  match tier with
  | .core => { st with coreC := st.coreC ++ [m] }
  | .active => { st with activeC := st.activeC ++ [m] }
  | .background => { st with backgroundC := st.backgroundC ++ [m] }

/-- `milvusClient.delete` with expression `id == "<i>"` on `memory_<tier>`. -/
def deleteById (st : ServiceState) (tier : MemoryTierType) (i : String) :
    ServiceState :=
  match tier with
  | .core => { st with coreC := st.coreC.filter (fun m => m.id ≠ i) }
  | .active => { st with activeC := st.activeC.filter (fun m => m.id ≠ i) }
  | .background =>
      { st with backgroundC := st.backgroundC.filter (fun m => m.id ≠ i) }

/-- `MemoryCache.getCachedMemory` (the service always uses the default
`active` tier cache): lookup by key. -/
def cacheGet (cache : List (String × Memory)) (k : String) : Option Memory :=
  (cache.find? (fun p => p.1 = k)).map (·.2)

/-- `MemoryCache.setCachedMemory`: LRU insert, replacing any entry with the
same key and moving the key to the front. -/
def cacheSet (cache : List (String × Memory)) (k : String) (m : Memory) :
    List (String × Memory) :=
  (k, m) :: cache.filter (fun p => p.1 ≠ k)

/-- `MemoryCache.invalidateCache` with no tier argument: delete the key. -/
def cacheDelete (cache : List (String × Memory)) (k : String) :
    List (String × Memory) :=
  cache.filter (fun p => p.1 ≠ k)

/-- `MemoryService.calculateRecencyScore`:
`exp(−(now − t) / 30 days)` (milliseconds). -/
def calculateRecencyScore (env : Env) (t : ℚ) : ℚ :=
  env.exp (-(env.now - t) / (30 * 24 * 60 * 60 * 1000))

/-- `MemoryService.calculateAccessFrequency`: `min(accessCount / 100, 1)`. -/
def calculateAccessFrequency (accessCount : ℚ) : ℚ :=
  min (accessCount / 100) 1

/-- The timestamp actually fed to the recency score by
`scoreMemoryImportance`: the JavaScript expression
`memory.timestamp || Date.now()` falls back to the clock when the stored
timestamp is the falsy value `0`. -/
def scoreRecencyArg (env : Env) (m : Memory) : ℚ :=
  if m.timestamp = 0 then env.now else m.timestamp

/-- `MemoryService.scoreMemoryImportance`, the ingestion scoring formula. -/
def scoreMemoryImportance (env : Env) (m : Memory) : ℚ :=
  let recency := calculateRecencyScore env (scoreRecencyArg env m)
  let emotionalValue := m.metadata.emotional_value.getD 0
  let contextRelevance := m.metadata.context_relevance.getD 0
  let accessFrequency := calculateAccessFrequency m.accessCount
  recency * (3/10) + emotionalValue * (3/10) +
    contextRelevance * (1/5) + accessFrequency * (1/5)

/-- `MemoryService.determineTierType`: the importance bucket. -/
def determineTierType (importance : ℚ) : MemoryTierType :=
  if 4/5 ≤ importance then .core
  else if 2/5 ≤ importance then .active
  else .background

/-- The fresh record built inside `MemoryService.store` before compression:
fresh id, `timestamp = lastAccessed = now`, `accessCount = 0`, recomputed
importance and tier. -/
def freshMemory (env : Env) (st : ServiceState) (memory : Memory) : Memory :=
  let importance := scoreMemoryImportance env memory
  { id := env.uuid st.nextUuid,
    content := memory.content,
    embedding := memory.embedding,
    timestamp := env.now,
    tierType := determineTierType importance,
    importance := importance,
    lastAccessed := env.now,
    accessCount := 0,
    metadata := memory.metadata }

/-- The state updates of a successful `MemoryService.store`: bump the UUID
counter, cache the fresh record when its recomputed tier is `core`, then
compress it and append it to the collection of the recomputed tier. -/
def storeResultState (env : Env) (st : ServiceState) (memory : Memory) :
    ServiceState :=
  let newMemory := freshMemory env st memory
  let st1 : ServiceState := { st with nextUuid := st.nextUuid + 1 }
  let st2 : ServiceState :=
    if newMemory.tierType = .core then
      { st1 with cache := cacheSet st1.cache newMemory.id newMemory }
    else st1
  insertMemory st2 newMemory.tierType (compressMemory env newMemory)

/-- `MemoryService.store`. Rejects a falsy (empty) content string, performs
the `storeResultState` updates and returns the fresh id. -/
def store (env : Env) (st : ServiceState) (memory : Memory) :
    Except String (String × ServiceState) :=
  if memory.content = "" then .error "Missing required memory fields"
  else .ok ((freshMemory env st memory).id, storeResultState env st memory)

/-- `MemoryService.searchTier`: on the core tier a cache lookup keyed by the
raw query string short-circuits to a single result; otherwise the vector
store returns at most `limit` ranked records of the tier collection. -/
def searchTier (env : Env) (st : ServiceState) (tier : MemoryTierType)
    (query : String) (limit : ℕ) : List Memory :=
  match tier, cacheGet st.cache query with
  | .core, some m => [m]
  | _, _ => (env.rank (getCollection st tier) query).take limit

/-- The cascade loop of `MemoryService.retrieve`: query each tier for
`limit − results.length` records and stop as soon as `limit` is reached. -/
def retrieveGo (env : Env) (st : ServiceState) (query : String) (limit : ℕ) :
    List MemoryTierType → List Memory → List Memory
  | [], acc => acc
  | t :: ts, acc =>
    let acc' := acc ++ searchTier env st t query (limit - acc.length)
    if limit ≤ acc'.length then acc' else retrieveGo env st query limit ts acc'

/-- The list of search results accumulated by `MemoryService.retrieve`
before access metrics are updated. -/
def retrieveResults (env : Env) (st : ServiceState) (query : String)
    (limit : ℕ) : List Memory :=
  retrieveGo env st query limit [.core, .active, .background] []

/-- The in-place mutation of `updateAccessMetrics`:
`lastAccessed = Date.now()`, `accessCount++`. -/
def bumpAccess (env : Env) (m : Memory) : Memory :=
  { m with lastAccessed := env.now, accessCount := m.accessCount + 1 }

/-- The sequence of `store` calls issued by `updateAccessMetrics`, one per
returned memory. -/
def storeMany (env : Env) : List Memory → ServiceState →
    Except String ServiceState
  | [], st => .ok st
  | m :: ms, st =>
    match store env st m with
    | .error e => .error e
    | .ok (_, st') => storeMany env ms st'

/-- `MemoryService.retrieve`: cascade search, then `updateAccessMetrics` on
the results (which mutates the returned objects and re-stores each of
them). Returns the mutated result objects. -/
def retrieve (env : Env) (st : ServiceState) (query : String) (limit : ℕ) :
    Except String (List Memory × ServiceState) :=
  let results := retrieveResults env st query limit
  let bumped := results.map (bumpAccess env)
  match storeMany env bumped st with
  | .error e => .error e
  | .ok st' => .ok (bumped, st')

/-- `MemoryService.transitionTier`: delete the record from the source tier's
collection, set the tier field, re-insert through `store`, then cache the
object when the requested tier is `core` and invalidate it otherwise. -/
def transitionTier (env : Env) (st : ServiceState) (memory : Memory)
    (newTier : MemoryTierType) : Except String ServiceState :=
  let st1 := deleteById st memory.tierType memory.id
  let m' := { memory with tierType := newTier }
  match store env st1 m' with
  | .error e => .error e
  | .ok (_, st2) =>
    if newTier = .core then
      .ok { st2 with cache := cacheSet st2.cache m'.id m' }
    else
      .ok { st2 with cache := cacheDelete st2.cache m'.id }

/-- The hardcoded `minImportance` of each tier in
`MemoryTierManager.initializeTiers`. -/
def minImportance : MemoryTierType → ℚ
  | .core => 4/5
  | .active => 2/5
  | .background => 0

/-- `MemoryTierManager.validateTierTransition`:
`importance ≥ minImportance(targetTier)`. -/
def validateTierTransition (memory : Memory) (targetTier : MemoryTierType) :
    Bool :=
  minImportance targetTier ≤ memory.importance

/-- The consolidation configuration fields read by `MemoryConsolidator`
(`config.getConsolidationConfig()`). -/
structure ConsolidationCfg where
  threshold : ℚ
  recencyDecayRate : ℚ
  maxAccessCount : ℚ
deriving DecidableEq, Repr

/-- A cluster built by `MemoryConsolidator.clusterMemories`. -/
structure MemoryCluster where
  memories : List Memory
  centerMemory : Memory
  importance : ℚ
  timestamp : ℚ
deriving DecidableEq, Repr

/-- `MemoryConsolidator.calculateRecencyWeight`:
`exp(−(now − t) / recencyDecayRate)`. -/
def calculateRecencyWeight (env : Env) (cfg : ConsolidationCfg) (t : ℚ) : ℚ :=
  env.exp (-(env.now - t) / cfg.recencyDecayRate)

/-- `MemoryConsolidator.calculateAccessWeight`:
`min(accessCount / maxAccessCount, 1)`. -/
def calculateAccessWeight (cfg : ConsolidationCfg) (accessCount : ℚ) : ℚ :=
  min (accessCount / cfg.maxAccessCount) 1

/-- The per-member weight product `importance · recency · accessWeight`
summed by `calculateMergedImportance`. -/
def mergedWeight (env : Env) (cfg : ConsolidationCfg) (m : Memory) : ℚ :=
  m.importance * calculateRecencyWeight env cfg m.timestamp *
    calculateAccessWeight cfg m.accessCount

/-- `MemoryConsolidator.calculateMergedImportance`: the left fold of the
member weights (the JavaScript `reduce`) divided by the member count. -/
def calculateMergedImportance (env : Env) (cfg : ConsolidationCfg)
    (ms : List Memory) : ℚ :=
  (ms.foldl (fun s m => s + mergedWeight env cfg m) 0) / (ms.length : ℚ)

/-- `MemoryConsolidator.calculateSimilarity`: cosine similarity; the square
root is the abstracted `Math.sqrt`. -/
def calculateSimilarity (env : Env) (e1 e2 : List ℚ) : ℚ :=
  let dotProduct := (List.zipWith (· * ·) e1 e2).foldl (· + ·) 0
  let norm1 := env.sqrtQ ((e1.map (fun v => v * v)).foldl (· + ·) 0)
  let norm2 := env.sqrtQ ((e2.map (fun v => v * v)).foldl (· + ·) 0)
  dotProduct / (norm1 * norm2)

/-- `MemoryConsolidator.shouldAddToCluster`: similarity against the
cluster's `centerMemory` reaches the consolidation threshold. -/
def shouldAddToCluster (env : Env) (cfg : ConsolidationCfg) (m : Memory)
    (cluster : MemoryCluster) : Bool :=
  cfg.threshold ≤ calculateSimilarity env m.embedding cluster.centerMemory.embedding

/-- One step of `MemoryConsolidator.clusterMemories`: attach the memory to
the first accepting cluster (recomputing that cluster's importance), or
append a fresh single-member cluster. -/
def addToClusters (env : Env) (cfg : ConsolidationCfg) :
    List MemoryCluster → Memory → List MemoryCluster
  | [], m =>
    [{ memories := [m], centerMemory := m, importance := m.importance,
       timestamp := m.timestamp }]
  | c :: cs, m =>
    if shouldAddToCluster env cfg m c then
      { c with
        memories := c.memories ++ [m],
        importance := calculateMergedImportance env cfg (c.memories ++ [m]) }
        :: cs
    else c :: addToClusters env cfg cs m

/-- `MemoryConsolidator.clusterMemories`: the leader-style clustering pass
over the input list. -/
def clusterMemories (env : Env) (cfg : ConsolidationCfg) (ms : List Memory) :
    List MemoryCluster :=
  ms.foldl (addToClusters env cfg) []

/-- Stable insertion used to model the JavaScript `Array.sort` (descending
by `importance · recencyWeight`, stable on ties) in `mergeContents`. -/
def insertByKeyDesc (key : Memory → ℚ) (m : Memory) :
    List Memory → List Memory
  | [] => [m]
  | x :: xs =>
    if key x ≤ key m then m :: x :: xs else x :: insertByKeyDesc key m xs

/-- The stable descending sort of `mergeContents`. -/
def sortByKeyDesc (key : Memory → ℚ) : List Memory → List Memory
  | [] => []
  | m :: ms => insertByKeyDesc key m (sortByKeyDesc key ms)

/-- `MemoryConsolidator.mergeContents`: contents sorted by
`importance · recency` descending, joined by a double newline, trimmed. -/
def mergeContents (env : Env) (cfg : ConsolidationCfg) (ms : List Memory) :
    String :=
  let sorted := sortByKeyDesc
    (fun m => m.importance * calculateRecencyWeight env cfg m.timestamp) ms
  (String.intercalate "\n\n" (sorted.map (·.content))).trim

/-- The numeric-key branch of `MemoryConsolidator.mergeMetadata`: a value
already present is averaged with the incoming one. -/
def mergeNumField : Option ℚ → Option ℚ → Option ℚ
  | acc, none => acc
  | none, some v => some v
  | some a, some v => some ((a + v) / 2)

/-- The non-numeric branch of `MemoryConsolidator.mergeMetadata`: the last
member's value wins. -/
def mergeLastField {α : Type} : Option α → Option α → Option α
  | acc, none => acc
  | _, some v => some v

/-- `MemoryConsolidator.mergeMetadata`, field by field: numbers are
averaged pairwise in member order, everything else is overwritten by the
last member that carries the key. -/
def mergeMetadata (ms : List Memory) : MemoryMetadata :=
  ms.foldl
    (fun acc m =>
      { emotional_value :=
          mergeNumField acc.emotional_value m.metadata.emotional_value,
        context_relevance :=
          mergeNumField acc.context_relevance m.metadata.context_relevance,
        userId := mergeLastField acc.userId m.metadata.userId,
        lastEvolution :=
          mergeNumField acc.lastEvolution m.metadata.lastEvolution,
        evolutionHistory :=
          if m.metadata.evolutionHistory = [] then acc.evolutionHistory
          else m.metadata.evolutionHistory,
        compression := mergeLastField acc.compression m.metadata.compression })
    {}

/-- `MemoryConsolidator.calculateMergedEmbedding`: the importance-weighted
average of the members' embeddings. -/
def calculateMergedEmbedding (ms : List Memory) : List ℚ :=
  let totalImportance := ms.foldl (fun s m => s + m.importance) 0
  let dimension := (ms.headI).embedding.length
  ms.foldl
    (fun acc m =>
      List.zipWith (fun a v => a + v * (m.importance / totalImportance)) acc
        m.embedding)
    (List.replicate dimension 0)

/-- `MemoryConsolidator.sumAccessCounts`. -/
def sumAccessCounts (ms : List Memory) : ℚ :=
  ms.foldl (fun s m => s + m.accessCount) 0

/-- `MemoryConsolidator.mergeCluster`: the merged representative of a
multi-member cluster, with a fresh id `uid` and `timestamp = now`. -/
def mergeCluster (env : Env) (cfg : ConsolidationCfg) (uid : String)
    (cluster : MemoryCluster) : Memory :=
  let importance := calculateMergedImportance env cfg cluster.memories
  { id := uid,
    content := mergeContents env cfg cluster.memories,
    embedding := calculateMergedEmbedding cluster.memories,
    timestamp := env.now,
    tierType := determineTierType importance,
    importance := importance,
    lastAccessed := env.now,
    accessCount := sumAccessCounts cluster.memories,
    metadata := mergeMetadata cluster.memories }

/-- The output loop of `MemoryConsolidator.consolidateMemories`: clusters
with more than one member are replaced by their merged representative
(with the `n`-th fresh uuid), single-member clusters pass through. -/
def consolidateAux (env : Env) (cfg : ConsolidationCfg) :
    ℕ → List MemoryCluster → List Memory
  | _, [] => []
  | n, c :: cs =>
    (if 1 < c.memories.length then mergeCluster env cfg (env.uuid n) c
     else c.memories.headI) :: consolidateAux env cfg (n + 1) cs

/-- `MemoryConsolidator.consolidateMemories`: cluster, then merge or pass
through. -/
def consolidateMemories (env : Env) (cfg : ConsolidationCfg)
    (ms : List Memory) : List Memory :=
  consolidateAux env cfg 0 (clusterMemories env cfg ms)

/-- The evolution configuration fields read (as `config.evolution.<field>`)
by `MemoryEvolution`. -/
structure EvolutionCfg where
  agingRate : ℚ
  reinforcementThreshold : ℚ
  archivalThreshold : ℚ
  maxAccessCount : ℚ
  maxAge : ℚ
  importanceChangeRate : ℚ
  recencyDecayRate : ℚ
deriving DecidableEq, Repr

/-- `MemoryEvolution.calculateAccessModifier`:
`min(accessCount / maxAccessCount, 1)`. -/
def calculateAccessModifier (cfg : EvolutionCfg) (accessCount : ℚ) : ℚ :=
  min (accessCount / cfg.maxAccessCount) 1

/-- `MemoryEvolution.applyAging`: the aging factor
`exp(−age/agingRate) · (1 + 0.5·importance + accessModifier)`. -/
def applyAging (env : Env) (cfg : EvolutionCfg) (m : Memory) : ℚ :=
  let baseAgingFactor := env.exp (-(env.now - m.timestamp) / cfg.agingRate)
  baseAgingFactor *
    (1 + m.importance * (1/2) + calculateAccessModifier cfg m.accessCount)

/-- `MemoryEvolution.calculateReinforcementScore`:
`0.4·recency(lastAccessed) + 0.3·emotionalValue + 0.3·contextRelevance`. -/
def calculateReinforcementScore (env : Env) (cfg : EvolutionCfg)
    (m : Memory) : ℚ :=
  let recencyScore := env.exp (-(env.now - m.lastAccessed) / cfg.recencyDecayRate)
  recencyScore * (2/5) + m.metadata.emotional_value.getD 0 * (3/10) +
    m.metadata.context_relevance.getD 0 * (3/10)

/-- `MemoryEvolution.calculateArchivalProbability`:
`0.4·min(age/maxAge, 1) + 0.3·(1 − importance) + 0.3·(1 − accessModifier)`. -/
def calculateArchivalProbability (env : Env) (cfg : EvolutionCfg)
    (m : Memory) : ℚ :=
  let ageScore := min ((env.now - m.timestamp) / cfg.maxAge) 1
  ageScore * (2/5) + (1 - m.importance) * (3/10) +
    (1 - calculateAccessModifier cfg m.accessCount) * (3/10)

/-- `MemoryEvolution.evaluateForArchival`: archival probability strictly
above the archival threshold. -/
def evaluateForArchival (env : Env) (cfg : EvolutionCfg) (m : Memory) :
    Bool :=
  cfg.archivalThreshold < calculateArchivalProbability env cfg m

/-- `MemoryEvolution.calculateImportanceChange`:
`(reinforcement − (1 − agingFactor)) · importanceChangeRate`. -/
def calculateImportanceChange (cfg : EvolutionCfg) (agingFactor : ℚ)
    (reinforcementScore : ℚ) : ℚ :=
  (reinforcementScore - (1 - agingFactor)) * cfg.importanceChangeRate

/-- `MemoryEvolution.determineNewTier`: archival forces `background`;
otherwise the new importance is bucketed directly
(`≥ 0.8 → core`, `≥ 0.4 → active`, else `background`). -/
def determineNewTier (currentTier : MemoryTierType) (newImportance : ℚ)
    (shouldArchive : Bool) : MemoryTierType :=
  if shouldArchive then .background
  else if 4/5 ≤ newImportance then .core
  else if 2/5 ≤ newImportance then .active
  else .background

/-- The outcome of `MemoryEvolution.computeEvolutionResult`. -/
structure EvolutionResult where
  evolved : Bool
  importance : ℚ
  tierType : MemoryTierType
  metadata : MemoryMetadata
  agingFactor : ℚ
  reinforcementScore : ℚ
  archivalProbability : ℚ
deriving DecidableEq, Repr

/-- `MemoryEvolution.computeEvolutionResult`: clamp the updated importance
to `[0, 1]`, pick the new tier, flag `evolved` iff importance or tier
changed, and append the evolution-history entry. -/
def computeEvolutionResult (env : Env) (cfg : EvolutionCfg) (m : Memory)
    (agingFactor reinforcementScore : ℚ) (shouldArchive : Bool) :
    EvolutionResult :=
  let importanceChange :=
    calculateImportanceChange cfg agingFactor reinforcementScore
  let newImportance := max 0 (min 1 (m.importance + importanceChange))
  let newTierType := determineNewTier m.tierType newImportance shouldArchive
  { evolved := newImportance ≠ m.importance ∨ newTierType ≠ m.tierType,
    importance := newImportance,
    tierType := newTierType,
    metadata := { m.metadata with
      lastEvolution := some env.now,
      evolutionHistory := m.metadata.evolutionHistory ++
        [⟨env.now, agingFactor, reinforcementScore, importanceChange⟩] },
    agingFactor := agingFactor,
    reinforcementScore := reinforcementScore,
    archivalProbability := if shouldArchive then 1 else 0 }

/-- `MemoryEvolution.updateMemory`: apply the evolution result when
`evolved`, otherwise return the original object. -/
def updateMemory (m : Memory) (r : EvolutionResult) : Memory :=
  if r.evolved then
    { m with importance := r.importance, tierType := r.tierType,
             metadata := r.metadata }
  else m

/-- `MemoryEvolution.evolveMemory`: aging, reinforcement, archival check,
evolution result, update. -/
def evolveMemory (env : Env) (cfg : EvolutionCfg) (m : Memory) : Memory :=
  updateMemory m
    (computeEvolutionResult env cfg m (applyAging env cfg m)
      (calculateReinforcementScore env cfg m)
      (evaluateForArchival env cfg m))

/-- The per-tier distribution counters of `MemoryManager.stats`. -/
structure TierDistribution where
  core : ℚ
  active : ℚ
  background : ℚ
deriving DecidableEq, Repr

/-- `MemoryManager`'s `MemoryStats`; `averageImportance` is a raw
JavaScript number (it can be `NaN`). -/
structure MemoryStats where
  totalMemories : ℚ
  tierDistribution : TierDistribution
  averageImportance : JSNum
  consolidationCount : ℕ
deriving DecidableEq, Repr

/-- The state held by `MemoryManager`: its stats, the last consolidation
time, and the memory service's state. -/
structure ManagerState where
  stats : MemoryStats
  lastConsolidationTime : ℚ
  service : ServiceState
deriving DecidableEq, Repr

/-- The manager configuration fields read by the studied
`MemoryManager` paths. -/
structure ManagerCfg where
  coreImportanceThreshold : ℚ
  activeImportanceThreshold : ℚ
  agingRate : ℚ
  maxAccessCount : ℚ
  memoryThreshold : ℚ
  timeThreshold : ℚ
deriving DecidableEq, Repr

/-- `MemoryService.getAllMemories` (used via `getMemories`): the three tier
collections queried in core, active, background order. -/
def getAllMemories (st : ServiceState) : List Memory :=
  st.coreC ++ st.activeC ++ st.backgroundC

/-- `MemoryManager.updateStats`: total count, per-tier distribution, and
the unguarded average `totalImportance / memories.length`. -/
def updateStats (mst : ManagerState) : ManagerState :=
  let memories := getAllMemories mst.service
  let totalImportance := memories.foldl (fun s m => s + m.importance) 0
  { mst with stats :=
    { totalMemories := (memories.length : ℚ),
      tierDistribution :=
        { core := ((memories.filter (fun m => m.tierType = .core)).length : ℚ),
          active := ((memories.filter (fun m => m.tierType = .active)).length : ℚ),
          background :=
            ((memories.filter (fun m => m.tierType = .background)).length : ℚ) },
      averageImportance := jsDivQ totalImportance (memories.length : ℚ),
      consolidationCount := mst.stats.consolidationCount } }

/-- `MemoryManager.getStats`. -/
def getStats (mst : ManagerState) : MemoryStats :=
  mst.stats

/-- `MemoryManager.evaluateConsolidationNeed`:
`totalMemories > memoryThreshold` or
`timeSinceLastConsolidation > timeThreshold`. -/
def evaluateConsolidationNeed (env : Env) (cfg : ManagerCfg)
    (mst : ManagerState) : Bool :=
  (cfg.memoryThreshold < mst.stats.totalMemories) ||
    (cfg.timeThreshold < env.now - mst.lastConsolidationTime)

/-- `MemoryManager.checkConsolidationTriggers`: when the need evaluates
true, the consolidator is invoked on all memories but its return value is
discarded (the binding below mirrors the unused `await`), and only
`lastConsolidationTime` and `consolidationCount` change. The service state
is left untouched. -/
def checkConsolidationTriggers (env : Env) (cfg : ManagerCfg)
    (ccfg : ConsolidationCfg) (mst : ManagerState) : ManagerState :=
  if evaluateConsolidationNeed env cfg mst then
    let _discarded := consolidateMemories env ccfg (getAllMemories mst.service)
    { mst with
      lastConsolidationTime := env.now,
      stats := { mst.stats with
        consolidationCount := mst.stats.consolidationCount + 1 } }
  else mst

/-- `MemoryManager.calculateCurrentImportance`:
`0.4·importance + 0.3·recency + 0.2·accessFrequency + 0.1·relevance`. -/
def calculateCurrentImportance (env : Env) (cfg : ManagerCfg) (m : Memory) :
    ℚ :=
  let recency := env.exp (-(env.now - m.timestamp) / cfg.agingRate)
  let accessFrequency := min (m.accessCount / cfg.maxAccessCount) 1
  m.importance * (2/5) + recency * (3/10) + accessFrequency * (1/5) +
    m.metadata.context_relevance.getD 0 * (1/10)

/-- `MemoryManager.evaluateTierTransition`: single-step promotion and
demotion driven by the current-importance score against the tier
importance thresholds. -/
def evaluateTierTransition (env : Env) (cfg : ManagerCfg) (m : Memory) :
    MemoryTierType :=
  let ci := calculateCurrentImportance env cfg m
  if m.tierType = .background ∧ cfg.activeImportanceThreshold < ci then .active
  else if m.tierType = .active ∧ cfg.coreImportanceThreshold < ci then .core
  else if m.tierType = .core ∧ ci < cfg.coreImportanceThreshold then .active
  else if m.tierType = .active ∧ ci < cfg.activeImportanceThreshold then
    .background
  else m.tierType

/-- One tier of `MemoryCache`: the `lru-cache` instance's capacity and its
entries, most recently used first. -/
structure LruState where
  max : ℚ
  entries : List (String × Memory)
deriving DecidableEq, Repr

/-- A fresh `new LRUCache({max})`: empty. -/
def newLRUCache (max : ℚ) : LruState :=
  { max := max, entries := [] }

/-- The per-tier counters of `MemoryCache.stats.metrics`; `hitRate` is the
raw JavaScript number `hits / (hits + misses)` (it can be `NaN`). -/
structure CacheMetrics where
  hits : ℕ
  misses : ℕ
  evictions : ℕ
  size : ℚ
  hitRate : JSNum
deriving DecidableEq, Repr

/-- The whole `MemoryCache` state: one LRU cache and one metrics record per
tier. -/
structure CacheState where
  coreLru : LruState
  activeLru : LruState
  backgroundLru : LruState
  coreMetrics : CacheMetrics
  activeMetrics : CacheMetrics
  backgroundMetrics : CacheMetrics
deriving DecidableEq, Repr

/-- The LRU cache of a tier. -/
def getLru (st : CacheState) : MemoryTierType → LruState
  | .core => st.coreLru
  | .active => st.activeLru
  | .background => st.backgroundLru

/-- The metrics of a tier. -/
def getMetrics (st : CacheState) : MemoryTierType → CacheMetrics
  | .core => st.coreMetrics
  | .active => st.activeMetrics
  | .background => st.backgroundMetrics

/-- The per-tier body of `MemoryCache.optimizeCache`: when the hit rate is
below `0.5` and the capacity above `100`, the tier's cache is replaced by a
fresh (empty) `LRUCache` of capacity `⌊0.8·max⌋`; when the hit rate is
above `0.8` and the fill ratio `size/max` above `0.9`, by a fresh one of
capacity `⌊1.2·max⌋`; otherwise it is kept. -/
def optimizeTier (metrics : CacheMetrics) (c : LruState) : LruState :=
  if jsLtQ metrics.hitRate (1/2) ∧ 100 < c.max then
    newLRUCache ((⌊c.max * (4/5)⌋ : ℤ) : ℚ)
  else if jsGtQ metrics.hitRate (4/5) ∧ jsGtQ (jsDivQ metrics.size c.max) (9/10) then
    newLRUCache ((⌊c.max * (6/5)⌋ : ℤ) : ℚ)
  else c

/-- `MemoryCache.optimizeCache`: `optimizeTier` applied to every tier. -/
def optimizeCache (st : CacheState) : CacheState :=
  { st with
    coreLru := optimizeTier st.coreMetrics st.coreLru,
    activeLru := optimizeTier st.activeMetrics st.activeLru,
    backgroundLru := optimizeTier st.backgroundMetrics st.backgroundLru }

/-- Lookup in the modelled LRU entries. -/
def lruGet (c : LruState) (k : String) : Option Memory :=
  (c.entries.find? (fun p => p.1 = k)).map (·.2)

/-! ### Concrete fixtures used by witnesses and counterexamples -/

/-- A concrete environment whose clock reads `now` and whose `Math.exp`
abstraction is the constant function `e`. -/
def mkEnv (now e : ℚ) : Env :=
  { now := now,
    exp := fun _ => e,
    sqrtQ := fun _ => 1,
    uuid := fun n => "uuid-" ++ toString n,
    rank := fun ms _ => ms,
    serializedLen := fun _ => 0,
    deflateBlob := fun _ => "" }

/-- A memory belonging (through `metadata.userContext.userId`) to the user
`alice`, stored in the background tier. -/
def aliceMemory : Memory :=
  { id := "m-alice", content := "hi", embedding := [1], timestamp := 0,
    tierType := .background, importance := 1/2, lastAccessed := 0,
    accessCount := 3, metadata := { userId := some "alice" } }

/-! ### Helper lemmas -/

/-- `compressMemory` only rewrites the content and the compression
annotation: the id is kept. -/
theorem compressMemory_id (env : Env) (m : Memory) :
    (compressMemory env m).id = m.id := by
  by_cases h : env.serializedLen m < 1024 <;> simp [compressMemory, h]

/-- `compressMemory` keeps the tier field. -/
theorem compressMemory_tierType (env : Env) (m : Memory) :
    (compressMemory env m).tierType = m.tierType := by
  by_cases h : env.serializedLen m < 1024 <;> simp [compressMemory, h]

/-- `compressMemory` keeps the access counter. -/
theorem compressMemory_accessCount (env : Env) (m : Memory) :
    (compressMemory env m).accessCount = m.accessCount := by
  by_cases h : env.serializedLen m < 1024 <;> simp [compressMemory, h]

/-- The collections of the state after `insertMemory`: the targeted tier
gains the record at the end, the others are untouched. -/
theorem getCollection_insertMemory (st : ServiceState)
    (t' t : MemoryTierType) (m : Memory) :
    getCollection (insertMemory st t' m) t =
      getCollection st t ++ (if t = t' then [m] else []) := by
  cases t' <;> cases t <;> simp [insertMemory, getCollection]

/-- The collections after `deleteById`: the targeted tier is filtered on
the id, the others are untouched. -/
theorem getCollection_deleteById (st : ServiceState)
    (t' t : MemoryTierType) (i : String) :
    getCollection (deleteById st t' i) t =
      if t = t' then (getCollection st t).filter (fun m => m.id ≠ i)
      else getCollection st t := by
  cases t' <;> cases t <;> simp [deleteById, getCollection]

/-- Replacing the cache field leaves every collection unchanged. -/
theorem getCollection_setCache (st : ServiceState)
    (c : List (String × Memory)) (t : MemoryTierType) :
    getCollection { st with cache := c } t = getCollection st t := by
  cases t <;> rfl

/-- Replacing the UUID counter leaves every collection unchanged. -/
theorem getCollection_setUuid (st : ServiceState) (n : ℕ)
    (t : MemoryTierType) :
    getCollection { st with nextUuid := n } t = getCollection st t := by
  cases t <;> rfl

/-- `deleteById` does not touch the UUID counter. -/
theorem deleteById_nextUuid (st : ServiceState) (t : MemoryTierType)
    (i : String) : (deleteById st t i).nextUuid = st.nextUuid := by
  cases t <;> rfl

/-- `deleteById` does not touch the cache. -/
theorem deleteById_cache (st : ServiceState) (t : MemoryTierType)
    (i : String) : (deleteById st t i).cache = st.cache := by
  cases t <;> rfl

/-- The collections of the state after a successful `store`: the
recomputed tier's collection gains the compressed fresh record at the end,
the other collections are untouched. -/
theorem getCollection_storeResultState (env : Env) (st : ServiceState)
    (memory : Memory) (t : MemoryTierType) :
    getCollection (storeResultState env st memory) t =
      getCollection st t ++
        (if t = (freshMemory env st memory).tierType then
          [compressMemory env (freshMemory env st memory)] else []) := by
  unfold storeResultState
  rw [getCollection_insertMemory]
  split
  · rw [getCollection_setCache, getCollection_setUuid]
  · rw [getCollection_setUuid]

/-- `freshMemory` ignores the tier field of its input (the importance and
every copied field are independent of it). -/
theorem freshMemory_set_tier (env : Env) (st : ServiceState) (m : Memory)
    (t : MemoryTierType) :
    freshMemory env st { m with tierType := t } = freshMemory env st m := rfl

/-- The tier of the fresh record is the bucket of its recomputed
importance. -/
theorem freshMemory_tierType (env : Env) (st : ServiceState) (m : Memory) :
    (freshMemory env st m).tierType =
      determineTierType (scoreMemoryImportance env m) := rfl

/-- Inversion for `store`: success forces the non-empty-content branch and
determines the resulting state and id. -/
theorem store_ok_inv (env : Env) (st : ServiceState) (m : Memory)
    (i : String) (st' : ServiceState)
    (h : store env st m = .ok (i, st')) :
    ¬ m.content = "" ∧ i = (freshMemory env st m).id ∧
      st' = storeResultState env st m := by
  by_cases hc : m.content = ""
  · simp [store, hc] at h
  · simp [store, hc] at h
    exact ⟨hc, h.1.symm, h.2.symm⟩

/-- Whether a tier move from `t` to `t'` is a single step of
`background ↔ active ↔ core` (staying put included). -/
def oneStepTier : MemoryTierType → MemoryTierType → Bool
  | .background, .core => false
  | .core, .background => false
  | _, _ => true

/-! ### C9 -/

/-- C9: when the store holds zero memories, `MemoryManager.updateStats`
computes `averageImportance` as the unguarded `0 / 0`, i.e. `NaN`, and
`getStats` hands that stats record (with the `NaN` inside) to callers. -/
theorem c9_empty_store_average_importance_nan (mst : ManagerState)
    (h : getAllMemories mst.service = []) :
    (updateStats mst).stats.averageImportance = JSNum.nan ∧
    getStats (updateStats mst) = (updateStats mst).stats := by
  refine ⟨?_, rfl⟩
  simp [updateStats, h, jsDivQ]

/-- A manager state over an empty store. -/
def emptyManagerState : ManagerState :=
  { stats :=
      { totalMemories := 0, tierDistribution := ⟨0, 0, 0⟩,
        averageImportance := .val 0, consolidationCount := 0 },
    lastConsolidationTime := 0,
    service :=
      { coreC := [], activeC := [], backgroundC := [], cache := [],
        nextUuid := 0 } }

/-- Witness for C9 at the empty store. -/
theorem c9_empty_store_average_importance_nan_witness :
    getAllMemories emptyManagerState.service = [] ∧
    (updateStats emptyManagerState).stats.averageImportance = JSNum.nan :=
  ⟨rfl, (c9_empty_store_average_importance_nan emptyManagerState rfl).1⟩

/-! ### C3 -/

/-- C3 (amended): the consolidation trigger fires iff
`totalMemories > memoryThreshold` or
`timeSinceLastConsolidation > timeThreshold`; on firing,
`lastConsolidationTime` and `consolidationCount` are updated, but the
consolidator's output is discarded: the vector-store state is left exactly
as it was, so merged members are never written back or deleted. -/
theorem c3_consolidation_trigger_discards_output (env : Env)
    (mcfg : ManagerCfg) (ccfg : ConsolidationCfg) (mst : ManagerState) :
    (evaluateConsolidationNeed env mcfg mst = true ↔
      (mcfg.memoryThreshold < mst.stats.totalMemories ∨
        mcfg.timeThreshold < env.now - mst.lastConsolidationTime)) ∧
    (checkConsolidationTriggers env mcfg ccfg mst).service = mst.service ∧
    (checkConsolidationTriggers env mcfg ccfg mst).lastConsolidationTime =
      (if evaluateConsolidationNeed env mcfg mst then env.now
        else mst.lastConsolidationTime) ∧
    (checkConsolidationTriggers env mcfg ccfg mst).stats.consolidationCount =
      (if evaluateConsolidationNeed env mcfg mst then
        mst.stats.consolidationCount + 1 else mst.stats.consolidationCount) := by
  refine ⟨?_, ?_, ?_, ?_⟩
  · simp [evaluateConsolidationNeed]
  · unfold checkConsolidationTriggers
    split <;> rfl
  · unfold checkConsolidationTriggers
    split <;> simp_all
  · unfold checkConsolidationTriggers
    split <;> simp_all

/-- First member of the near-duplicate pair for the C3 counterexample. -/
def c3MemA : Memory :=
  { id := "a", content := "alpha", embedding := [1], timestamp := 0,
    tierType := .active, importance := 1/2, lastAccessed := 0,
    accessCount := 1, metadata := {} }

/-- Second member of the near-duplicate pair for the C3 counterexample. -/
def c3MemB : Memory :=
  { id := "b", content := "beta", embedding := [1], timestamp := 0,
    tierType := .active, importance := 1/2, lastAccessed := 0,
    accessCount := 1, metadata := {} }

/-- The deployed consolidation configuration (defaults of
`memory-config.ts`). -/
def c3Ccfg : ConsolidationCfg :=
  { threshold := 7/10, recencyDecayRate := 7 * 24 * 60 * 60 * 1000,
    maxAccessCount := 100 }

/-- The manager configuration for the C3 counterexample
(`memoryThreshold = 2`). -/
def c3Mcfg : ManagerCfg :=
  { coreImportanceThreshold := 4/5, activeImportanceThreshold := 2/5,
    agingRate := 1/10, maxAccessCount := 100, memoryThreshold := 2,
    timeThreshold := 24 * 60 * 60 * 1000 }

/-- A manager state holding the two near-duplicates, with the memory
threshold exceeded. -/
def c3Mst : ManagerState :=
  { stats :=
      { totalMemories := 5, tierDistribution := ⟨0, 2, 0⟩,
        averageImportance := .val (1/2), consolidationCount := 0 },
    lastConsolidationTime := 0,
    service :=
      { coreC := [], activeC := [c3MemA, c3MemB], backgroundC := [],
        cache := [], nextUuid := 0 } }

/-- C3 counterexample: the trigger fires (totalMemories 5 > threshold 2)
and the consolidator would merge the two near-duplicates into one memory,
yet after `checkConsolidationTriggers` the store is unchanged and both
members still exist — nothing is written back and nothing is deleted,
contradicting the claimed write-back and deletion of superseded members. -/
theorem c3_counterexample :
    evaluateConsolidationNeed (mkEnv 0 1) c3Mcfg c3Mst = true ∧
    (consolidateMemories (mkEnv 0 1) c3Ccfg
      (getAllMemories c3Mst.service)).length = 1 ∧
    (checkConsolidationTriggers (mkEnv 0 1) c3Mcfg c3Ccfg c3Mst).service =
      c3Mst.service ∧
    c3MemA ∈ getAllMemories
      (checkConsolidationTriggers (mkEnv 0 1) c3Mcfg c3Ccfg c3Mst).service ∧
    c3MemB ∈ getAllMemories
      (checkConsolidationTriggers (mkEnv 0 1) c3Mcfg c3Ccfg c3Mst).service := by
  have hneed : evaluateConsolidationNeed (mkEnv 0 1) c3Mcfg c3Mst = true := by
    norm_num [evaluateConsolidationNeed, c3Mcfg, c3Mst, mkEnv]
  have hlen : (consolidateMemories (mkEnv 0 1) c3Ccfg
      (getAllMemories c3Mst.service)).length = 1 := by
    norm_num [consolidateMemories, getAllMemories, c3Mst, c3MemA, c3MemB,
      clusterMemories, addToClusters, shouldAddToCluster, calculateSimilarity,
      mkEnv, c3Ccfg, consolidateAux]
  have hstep : checkConsolidationTriggers (mkEnv 0 1) c3Mcfg c3Ccfg c3Mst =
      { c3Mst with
        lastConsolidationTime := (mkEnv 0 1).now,
        stats := { c3Mst.stats with
          consolidationCount := c3Mst.stats.consolidationCount + 1 } } := by
    simp only [checkConsolidationTriggers, hneed, if_true]
  refine ⟨hneed, hlen, by rw [hstep], ?_, ?_⟩ <;>
    (rw [hstep]; simp [getAllMemories, c3Mst])

/-- Witness for C3's amended theorem: at the counterexample state the
trigger fires and yet the service state is untouched. -/
theorem c3_consolidation_trigger_discards_output_witness :
    (checkConsolidationTriggers (mkEnv 0 1) c3Mcfg c3Ccfg c3Mst).service =
      c3Mst.service :=
  (c3_consolidation_trigger_discards_output (mkEnv 0 1) c3Mcfg c3Ccfg
    c3Mst).2.1

/-! ### C4 -/

/-- C4 (amended): `MemoryService.transitionTier` performs no importance
validation and cannot fail with `InvalidTransition` (any non-empty content
succeeds); it deletes every record carrying the memory's id from the source
tier's collection and re-inserts through `store`, which allocates a fresh
id, recomputes the importance, and places the record in the tier determined
by the recomputed score — not necessarily the requested tier. The check
`importance ≥ minImportance(target)` exists only in
`MemoryTierManager.validateTierTransition`, which the service never
invokes. -/
theorem c4_transitionTier_no_validation (env : Env) (st : ServiceState)
    (m : Memory) (t : MemoryTierType) (hc : ¬ m.content = "")
    (hid : env.uuid st.nextUuid ≠ m.id) :
    (validateTierTransition m t = true ↔ minImportance t ≤ m.importance) ∧
    ∃ st', transitionTier env st m t = .ok st' ∧
      (∀ r ∈ getCollection st' m.tierType, r.id ≠ m.id) ∧
      compressMemory env (freshMemory env st m) ∈
        getCollection st' (determineTierType (scoreMemoryImportance env m)) ∧
      (compressMemory env (freshMemory env st m)).tierType =
        determineTierType (scoreMemoryImportance env m) := by
  refine ⟨by simp [validateTierTransition], ?_⟩
  have hfresh : freshMemory env (deleteById st m.tierType m.id)
      { m with tierType := t } = freshMemory env st m := by
    rw [freshMemory_set_tier]
    unfold freshMemory
    rw [deleteById_nextUuid]
  have hc' : ¬ ({ m with tierType := t } : Memory).content = "" := hc
  have hstore : store env (deleteById st m.tierType m.id)
      { m with tierType := t } =
      .ok ((freshMemory env st m).id,
        storeResultState env (deleteById st m.tierType m.id)
          { m with tierType := t }) := by
    simp [store, hc', hfresh]
  have hcol : ∀ tt, getCollection
      (storeResultState env (deleteById st m.tierType m.id)
        { m with tierType := t }) tt =
      (if tt = m.tierType then
        (getCollection st tt).filter (fun r => r.id ≠ m.id)
        else getCollection st tt) ++
      (if tt = determineTierType (scoreMemoryImportance env m) then
        [compressMemory env (freshMemory env st m)] else []) := by
    intro tt
    rw [getCollection_storeResultState, hfresh, getCollection_deleteById,
      freshMemory_tierType]
  refine ⟨if t = .core then
      { storeResultState env (deleteById st m.tierType m.id)
          { m with tierType := t } with
        cache := cacheSet (storeResultState env (deleteById st m.tierType m.id)
          { m with tierType := t }).cache m.id ({ m with tierType := t }) }
      else { storeResultState env (deleteById st m.tierType m.id)
          { m with tierType := t } with
        cache := cacheDelete (storeResultState env
          (deleteById st m.tierType m.id) { m with tierType := t }).cache
          m.id }, ?_, ?_, ?_, ?_⟩
  · simp only [transitionTier]
    rw [hstore]
    by_cases ht : t = .core <;> simp [ht]
  · intro r hr
    have hcol2 : ∀ tt, getCollection
        (if t = .core then
          { storeResultState env (deleteById st m.tierType m.id)
              { m with tierType := t } with
            cache := cacheSet (storeResultState env
              (deleteById st m.tierType m.id) { m with tierType := t }).cache
              m.id ({ m with tierType := t }) }
          else { storeResultState env (deleteById st m.tierType m.id)
              { m with tierType := t } with
            cache := cacheDelete (storeResultState env
              (deleteById st m.tierType m.id) { m with tierType := t }).cache
              m.id }) tt =
        getCollection (storeResultState env (deleteById st m.tierType m.id)
          { m with tierType := t }) tt := by
      intro tt
      split <;> rw [getCollection_setCache]
    rw [hcol2, hcol] at hr
    rcases List.mem_append.mp hr with hr1 | hr2
    · rw [if_pos rfl] at hr1
      have := (List.mem_filter.mp hr1).2
      simpa using this
    · split at hr2
      · rcases List.mem_singleton.mp hr2 with rfl
        rw [compressMemory_id]
        exact hid
      · simp at hr2
  · have hcol2 : ∀ tt, getCollection
        (if t = .core then
          { storeResultState env (deleteById st m.tierType m.id)
              { m with tierType := t } with
            cache := cacheSet (storeResultState env
              (deleteById st m.tierType m.id) { m with tierType := t }).cache
              m.id ({ m with tierType := t }) }
          else { storeResultState env (deleteById st m.tierType m.id)
              { m with tierType := t } with
            cache := cacheDelete (storeResultState env
              (deleteById st m.tierType m.id) { m with tierType := t }).cache
              m.id }) tt =
        getCollection (storeResultState env (deleteById st m.tierType m.id)
          { m with tierType := t }) tt := by
      intro tt
      split <;> rw [getCollection_setCache]
    rw [hcol2, hcol]
    simp
  · rw [compressMemory_tierType, freshMemory_tierType]

/-- A memory with importance `0.1`, far below the core minimum `0.8`. -/
def c4LowMemory : Memory :=
  { id := "low", content := "low importance", embedding := [1],
    timestamp := 1, tierType := .background, importance := 1/10,
    lastAccessed := 1, accessCount := 0, metadata := {} }

/-- A one-record service state holding `c4LowMemory` in the background
collection. -/
def c4State : ServiceState :=
  { coreC := [], activeC := [], backgroundC := [c4LowMemory], cache := [],
    nextUuid := 0 }

/-- C4 counterexample: transitioning a memory of importance `0.1` to the
core tier (minimum importance `0.8`) does not fail — the claimed
`InvalidTransition` never happens — even though
`MemoryTierManager.validateTierTransition` rejects exactly this move. -/
theorem c4_counterexample :
    validateTierTransition c4LowMemory .core = false ∧
    (transitionTier (mkEnv 1 0) c4State c4LowMemory .core).isOk = true := by
  constructor
  · norm_num [validateTierTransition, minImportance, c4LowMemory]
  · have hcne : ¬ ({ c4LowMemory with tierType := MemoryTierType.core } :
        Memory).content = "" := by
      simp [c4LowMemory]
    simp only [transitionTier, store, if_neg hcne]
    rfl

/-- Witness for C4's amended theorem at the counterexample input. -/
theorem c4_transitionTier_no_validation_witness :
    ¬ c4LowMemory.content = "" ∧
    (mkEnv 1 0).uuid c4State.nextUuid ≠ c4LowMemory.id ∧
    ((validateTierTransition c4LowMemory .core = true ↔
        minImportance .core ≤ c4LowMemory.importance) ∧
      ∃ st', transitionTier (mkEnv 1 0) c4State c4LowMemory .core = .ok st' ∧
        (∀ r ∈ getCollection st' c4LowMemory.tierType, r.id ≠ c4LowMemory.id) ∧
        compressMemory (mkEnv 1 0) (freshMemory (mkEnv 1 0) c4State c4LowMemory) ∈
          getCollection st'
            (determineTierType (scoreMemoryImportance (mkEnv 1 0) c4LowMemory)) ∧
        (compressMemory (mkEnv 1 0)
            (freshMemory (mkEnv 1 0) c4State c4LowMemory)).tierType =
          determineTierType (scoreMemoryImportance (mkEnv 1 0) c4LowMemory)) :=
  ⟨by decide, by decide,
    c4_transitionTier_no_validation (mkEnv 1 0) c4State c4LowMemory .core
      (by decide) (by decide)⟩

/-! ### C7 -/

/-- C7 (amended): the tier-management pass
(`MemoryManager.evaluateTierTransition`) moves a memory at most one step
along `background ↔ active ↔ core`; the evolution pass, by contrast,
buckets the new importance directly (see the counterexample). -/
theorem c7_tier_management_single_step (env : Env) (cfg : ManagerCfg)
    (m : Memory) :
    oneStepTier m.tierType (evaluateTierTransition env cfg m) = true := by
  unfold evaluateTierTransition
  cases h : m.tierType <;> simp [h] <;> split_ifs <;> simp [oneStepTier]

/-- The evolution configuration used in the C7 counterexample. -/
def c7Cfg : EvolutionCfg :=
  { agingRate := 1, reinforcementThreshold := 3/5, archivalThreshold := 4/5,
    maxAccessCount := 100, maxAge := 1, importanceChangeRate := 1/10,
    recencyDecayRate := 1 }

/-- A fresh, highly reinforced background-tier memory of importance
`0.79`. -/
def c7Memory : Memory :=
  { id := "m", content := "c", embedding := [1], timestamp := 0,
    tierType := .background, importance := 79/100, lastAccessed := 0,
    accessCount := 100,
    metadata := { emotional_value := some 1, context_relevance := some 1 } }

/-- C7 counterexample: in a single evolution step (as run once per
lifecycle pass by `evolveMemories`), `c7Memory` jumps straight from the
background tier to the core tier — `determineNewTier` buckets the clamped
new importance (here `1 ≥ 0.8`) with no one-step restriction. -/
theorem c7_counterexample :
    c7Memory.tierType = .background ∧
    (evolveMemory (mkEnv 0 1) c7Cfg c7Memory).tierType = .core := by
  refine ⟨rfl, ?_⟩
  have harch : evaluateForArchival (mkEnv 0 1) c7Cfg c7Memory = false := by
    norm_num [evaluateForArchival, calculateArchivalProbability,
      calculateAccessModifier, c7Cfg, c7Memory, mkEnv]
  have haging : applyAging (mkEnv 0 1) c7Cfg c7Memory = 479/200 := by
    norm_num [applyAging, calculateAccessModifier, c7Cfg, c7Memory, mkEnv]
  have hreinf : calculateReinforcementScore (mkEnv 0 1) c7Cfg c7Memory = 1 := by
    norm_num [calculateReinforcementScore, c7Cfg, c7Memory, mkEnv]
  rw [evolveMemory, harch, haging, hreinf]
  norm_num [computeEvolutionResult, calculateImportanceChange, updateMemory,
    determineNewTier, c7Cfg, c7Memory]

/-! ### C8 -/

/-- C8 (amended): during `MemoryCache.optimizeCache`, a tier with hit rate
below `0.5` and capacity above `100` gets capacity `⌊0.8·capacity⌋` and a
tier with hit rate above `0.8` and fill ratio above `0.9` gets capacity
`⌊1.2·capacity⌋` — but in both cases the tier's cache is replaced by a
fresh, empty `LRUCache`, so no previously cached entry (most recently used
or otherwise) survives the resize. -/
theorem c8_optimizeCache_resizes_to_empty (st : CacheState)
    (t : MemoryTierType) (q : ℚ)
    (h : (getMetrics st t).hitRate = .val q) :
    ((q < 1/2 ∧ 100 < (getLru st t).max) →
      (getLru (optimizeCache st) t).max = ((⌊(getLru st t).max * (4/5)⌋ : ℤ) : ℚ) ∧
      (getLru (optimizeCache st) t).entries = []) ∧
    ((4/5 < q ∧
        jsGtQ (jsDivQ (getMetrics st t).size (getLru st t).max) (9/10) = true) →
      (getLru (optimizeCache st) t).max = ((⌊(getLru st t).max * (6/5)⌋ : ℤ) : ℚ) ∧
      (getLru (optimizeCache st) t).entries = []) := by
  have hopt : getLru (optimizeCache st) t =
      optimizeTier (getMetrics st t) (getLru st t) := by
    cases t <;> rfl
  constructor
  · rintro ⟨h1, h2⟩
    have hb : jsLtQ (getMetrics st t).hitRate (1/2) = true := by
      rw [h]
      simpa [jsLtQ] using h1
    rw [hopt]
    unfold optimizeTier
    rw [hb]
    simp [h2, newLRUCache]
  · rintro ⟨h1, h2⟩
    have hnq : ¬ (q < 1/2) := by linarith
    have hb : jsLtQ (getMetrics st t).hitRate (1/2) = false := by
      rw [h]
      simpa [jsLtQ] using hnq
    have hg : jsGtQ (getMetrics st t).hitRate (4/5) = true := by
      rw [h]
      simpa [jsGtQ] using h1
    rw [hopt]
    unfold optimizeTier
    rw [hb, hg, h2]
    simp [newLRUCache]

/-- A core-tier LRU cache of capacity 1000 holding one entry, whose
observed hit rate is 0. -/
def c8State : CacheState :=
  { coreLru := { max := 1000, entries := [("a", c3MemA)] },
    activeLru := { max := 500, entries := [] },
    backgroundLru := { max := 100, entries := [] },
    coreMetrics :=
      { hits := 0, misses := 1, evictions := 0, size := 1, hitRate := .val 0 },
    activeMetrics :=
      { hits := 1, misses := 1, evictions := 0, size := 0,
        hitRate := .val (1/2) },
    backgroundMetrics :=
      { hits := 1, misses := 1, evictions := 0, size := 0,
        hitRate := .val (1/2) } }

/-- C8 counterexample: the core tier (hit rate 0 < 0.5, capacity
1000 > 100) is resized to capacity 800, but its most recently used entry
`"a"`, cached before the resize, is gone afterwards — the replacement
cache is empty, contradicting the claimed preservation of MRU entries. -/
theorem c8_counterexample :
    lruGet (getLru c8State .core) "a" = some c3MemA ∧
    (getLru (optimizeCache c8State) .core).max = 800 ∧
    lruGet (getLru (optimizeCache c8State) .core) "a" = none ∧
    (getLru (optimizeCache c8State) .core).entries = [] := by
  have hlru : getLru (optimizeCache c8State) .core =
      optimizeTier c8State.coreMetrics c8State.coreLru := rfl
  have hshrink : optimizeTier c8State.coreMetrics c8State.coreLru =
      newLRUCache 800 := by
    have h800 : ((⌊(1000 : ℚ) * (4/5)⌋ : ℤ) : ℚ) = 800 := by
      norm_num
    norm_num [optimizeTier, c8State, jsLtQ, newLRUCache, h800]
  refine ⟨rfl, ?_, ?_, ?_⟩ <;>
    simp [hlru, hshrink, newLRUCache, lruGet]

/-! ### C5 -/

/-- A left fold that adds `f` of each element equals the sum of the mapped
list (the shape of every JavaScript `reduce((s, m) => s + f(m), 0)` in the
consolidator and the stats code). -/
theorem foldl_add_map {α : Type} (f : α → ℚ) :
    ∀ (l : List α) (a : ℚ), l.foldl (fun s m => s + f m) a = a + (l.map f).sum
  | [], a => by simp
  | m :: l, a => by
    rw [List.foldl_cons, foldl_add_map f l (a + f m)]
    simp [add_assoc]

/-- C5: for every cluster (in particular any with at least two members),
the merged memory produced by `mergeCluster` carries `timestamp = now`
(the model of `createdAt = Date.now()`), `accessCount` equal to the sum of
the members' access counts, and `importance` equal to the mean over members
of `importance · recency · accessWeight` with
`accessWeight = min(accessCount/maxAccessCount, 1)`. -/
theorem c5_mergeCluster_merge_formulas (env : Env) (cfg : ConsolidationCfg)
    (uid : String) (c : MemoryCluster) (h : 2 ≤ c.memories.length) :
    (mergeCluster env cfg uid c).timestamp = env.now ∧
    (mergeCluster env cfg uid c).accessCount =
      (c.memories.map (·.accessCount)).sum ∧
    (mergeCluster env cfg uid c).importance =
      (c.memories.map (fun m => m.importance *
        calculateRecencyWeight env cfg m.timestamp *
        calculateAccessWeight cfg m.accessCount)).sum /
        (c.memories.length : ℚ) := by
  refine ⟨rfl, ?_, ?_⟩
  · show sumAccessCounts c.memories = _
    rw [sumAccessCounts, foldl_add_map]
    simp
  · show calculateMergedImportance env cfg c.memories = _
    rw [calculateMergedImportance, foldl_add_map]
    rw [zero_add]
    rfl

/-- A two-member cluster over the near-duplicate pair. -/
def c5Cluster : MemoryCluster :=
  { memories := [c3MemA, c3MemB], centerMemory := c3MemA, importance := 1/2,
    timestamp := 0 }

/-- Witness for C5 at a concrete two-member cluster. -/
theorem c5_mergeCluster_merge_formulas_witness :
    2 ≤ c5Cluster.memories.length ∧
    (mergeCluster (mkEnv 0 1) c3Ccfg "u" c5Cluster).timestamp =
      (mkEnv 0 1).now :=
  ⟨by decide,
    (c5_mergeCluster_merge_formulas (mkEnv 0 1) c3Ccfg "u" c5Cluster
      (by decide)).1⟩

/-! ### C6 -/

/-- C6: the ingestion importance computed inside `store` is exactly
`0.3·recency + 0.3·emotionalValue + 0.2·contextRelevance +
0.2·accessFrequency`, and — for drafts respecting the data model
(`emotionalValue, contextRelevance ∈ [0,1]`, non-negative access count,
recency in `[0,1]`, which holds whenever the timestamp is not in the
future) — the result lies in `[0, 1]`; the evolution update clamps its new
importance into `[0, 1]` unconditionally. -/
theorem c6_importance_formula_and_bounds (env : Env) (m : Memory)
    (hev0 : 0 ≤ m.metadata.emotional_value.getD 0)
    (hev1 : m.metadata.emotional_value.getD 0 ≤ 1)
    (hcr0 : 0 ≤ m.metadata.context_relevance.getD 0)
    (hcr1 : m.metadata.context_relevance.getD 0 ≤ 1)
    (hac : 0 ≤ m.accessCount)
    (hrec0 : 0 ≤ calculateRecencyScore env (scoreRecencyArg env m))
    (hrec1 : calculateRecencyScore env (scoreRecencyArg env m) ≤ 1) :
    scoreMemoryImportance env m =
      calculateRecencyScore env (scoreRecencyArg env m) * (3/10) +
        m.metadata.emotional_value.getD 0 * (3/10) +
        m.metadata.context_relevance.getD 0 * (1/5) +
        calculateAccessFrequency m.accessCount * (1/5) ∧
    0 ≤ scoreMemoryImportance env m ∧ scoreMemoryImportance env m ≤ 1 ∧
    ∀ (cfg : EvolutionCfg) (aging reinforcement : ℚ) (archive : Bool),
      0 ≤ (computeEvolutionResult env cfg m aging reinforcement
            archive).importance ∧
      (computeEvolutionResult env cfg m aging reinforcement
            archive).importance ≤ 1 := by
  have haf0 : 0 ≤ calculateAccessFrequency m.accessCount :=
    le_min (div_nonneg hac (by norm_num)) (by norm_num)
  have haf1 : calculateAccessFrequency m.accessCount ≤ 1 :=
    min_le_right _ _
  refine ⟨rfl, ?_, ?_, ?_⟩
  · simp only [scoreMemoryImportance]
    have h1 := mul_nonneg hrec0 (by norm_num : (0:ℚ) ≤ 3/10)
    have h2 := mul_nonneg hev0 (by norm_num : (0:ℚ) ≤ 3/10)
    have h3 := mul_nonneg hcr0 (by norm_num : (0:ℚ) ≤ 1/5)
    have h4 := mul_nonneg haf0 (by norm_num : (0:ℚ) ≤ 1/5)
    linarith
  · simp only [scoreMemoryImportance]
    have h1 := mul_le_mul_of_nonneg_right hrec1 (by norm_num : (0:ℚ) ≤ 3/10)
    have h2 := mul_le_mul_of_nonneg_right hev1 (by norm_num : (0:ℚ) ≤ 3/10)
    have h3 := mul_le_mul_of_nonneg_right hcr1 (by norm_num : (0:ℚ) ≤ 1/5)
    have h4 := mul_le_mul_of_nonneg_right haf1 (by norm_num : (0:ℚ) ≤ 1/5)
    linarith
  · intro cfg aging reinforcement archive
    constructor
    · exact le_max_left _ _
    · exact max_le (by norm_num) (min_le_left _ _)

/-- Witness for C6 at a concrete draft and the constant-½ `exp`. -/
theorem c6_importance_formula_and_bounds_witness :
    (0 ≤ (aliceMemory.metadata.emotional_value.getD 0) ∧
      aliceMemory.metadata.emotional_value.getD 0 ≤ 1 ∧
      0 ≤ aliceMemory.metadata.context_relevance.getD 0 ∧
      aliceMemory.metadata.context_relevance.getD 0 ≤ 1 ∧
      0 ≤ aliceMemory.accessCount ∧
      0 ≤ calculateRecencyScore (mkEnv 0 (1/2))
        (scoreRecencyArg (mkEnv 0 (1/2)) aliceMemory) ∧
      calculateRecencyScore (mkEnv 0 (1/2))
        (scoreRecencyArg (mkEnv 0 (1/2)) aliceMemory) ≤ 1) ∧
    0 ≤ scoreMemoryImportance (mkEnv 0 (1/2)) aliceMemory :=
  ⟨⟨by norm_num [aliceMemory], by norm_num [aliceMemory],
    by norm_num [aliceMemory], by norm_num [aliceMemory],
    by norm_num [aliceMemory],
    by norm_num [calculateRecencyScore, mkEnv],
    by norm_num [calculateRecencyScore, mkEnv]⟩,
    (c6_importance_formula_and_bounds (mkEnv 0 (1/2)) aliceMemory
      (by norm_num [aliceMemory]) (by norm_num [aliceMemory])
      (by norm_num [aliceMemory]) (by norm_num [aliceMemory])
      (by norm_num [aliceMemory])
      (by norm_num [calculateRecencyScore, mkEnv])
      (by norm_num [calculateRecencyScore, mkEnv])).2.1⟩

/-! ### C10 -/

/-- One clustering step appends the new memory to the multiset of clustered
members and changes nothing else. -/
theorem addToClusters_flatten (env : Env) (cfg : ConsolidationCfg)
    (m : Memory) : ∀ cs : List MemoryCluster,
    List.Perm (((addToClusters env cfg cs m).map (·.memories)).flatten)
      (((cs.map (·.memories)).flatten) ++ [m])
  | [] => by simp [addToClusters]
  | c :: cs => by
    by_cases hadd : shouldAddToCluster env cfg m c
    · simp only [addToClusters]
      rw [if_pos hadd]
      simp only [List.map_cons, List.flatten_cons]
      rw [List.append_assoc, List.append_assoc]
      exact List.Perm.append_left c.memories List.perm_append_comm
    · simp only [addToClusters]
      rw [if_neg hadd]
      simp only [List.map_cons, List.flatten_cons]
      rw [List.append_assoc]
      exact List.Perm.append_left c.memories (addToClusters_flatten env cfg m cs)

/-- The clustering fold preserves the multiset of members: the flattened
clusters are a permutation of the already-clustered members plus the
remaining input. -/
theorem clusterMemories_flatten_aux (env : Env) (cfg : ConsolidationCfg) :
    ∀ (ms : List Memory) (cs : List MemoryCluster),
    List.Perm (((ms.foldl (addToClusters env cfg) cs).map (·.memories)).flatten)
      (((cs.map (·.memories)).flatten) ++ ms)
  | [], cs => by simp
  | m :: ms, cs => by
    rw [List.foldl_cons]
    refine (clusterMemories_flatten_aux env cfg ms
      (addToClusters env cfg cs m)).trans ?_
    refine ((addToClusters_flatten env cfg m cs).append_right ms).trans ?_
    rw [List.append_assoc]
    exact List.Perm.refl _

/-- Cluster member lists stay non-empty through one clustering step. -/
theorem addToClusters_ne_nil (env : Env) (cfg : ConsolidationCfg)
    (m : Memory) : ∀ cs : List MemoryCluster,
    (∀ c ∈ cs, c.memories ≠ []) →
    ∀ c ∈ addToClusters env cfg cs m, c.memories ≠ []
  | [], _, c, hc => by
    simp only [addToClusters, List.mem_singleton] at hc
    subst hc
    simp
  | c0 :: cs, h, c, hc => by
    by_cases hadd : shouldAddToCluster env cfg m c0
    · simp only [addToClusters] at hc
      rw [if_pos hadd] at hc
      rcases List.mem_cons.mp hc with h1 | hmem
      · subst h1
        simp
      · exact h c (List.mem_cons_of_mem c0 hmem)
    · simp only [addToClusters] at hc
      rw [if_neg hadd] at hc
      rcases List.mem_cons.mp hc with h1 | hmem
      · subst h1
        exact h _ (List.mem_cons_self _ _)
      · exact addToClusters_ne_nil env cfg m cs
          (fun c' hc' => h c' (List.mem_cons_of_mem c0 hc')) c hmem

/-- Cluster member lists stay non-empty through the whole clustering
fold. -/
theorem clusterMemories_ne_nil_aux (env : Env) (cfg : ConsolidationCfg) :
    ∀ (ms : List Memory) (cs : List MemoryCluster),
    (∀ c ∈ cs, c.memories ≠ []) →
    ∀ c ∈ ms.foldl (addToClusters env cfg) cs, c.memories ≠ []
  | [], cs, h => h
  | m :: ms, cs, h => by
    rw [List.foldl_cons]
    exact clusterMemories_ne_nil_aux env cfg ms (addToClusters env cfg cs m)
      (addToClusters_ne_nil env cfg m cs h)

/-- Every single-member cluster's memory appears (unchanged) in the output
of the consolidation loop. -/
theorem consolidateAux_single_mem (env : Env) (cfg : ConsolidationCfg) :
    ∀ (cs : List MemoryCluster) (n : ℕ), ∀ c ∈ cs,
    c.memories.length = 1 → c.memories.headI ∈ consolidateAux env cfg n cs
  | [], _, c, hc, _ => by simp at hc
  | c0 :: cs, n, c, hc, hlen => by
    rcases List.mem_cons.mp hc with rfl | hmem
    · rw [consolidateAux]
      have : ¬ 1 < c.memories.length := by omega
      simp only [this, if_false]
      exact List.mem_cons_self _ _
    · rw [consolidateAux]
      exact List.mem_cons_of_mem _
        (consolidateAux_single_mem env cfg cs (n + 1) c hmem hlen)

/-- C10: the clusters built by `clusterMemories` partition the input — the
concatenation of their member lists is a permutation of the input and no
cluster is empty — and `consolidateMemories` passes each single-member
cluster's memory through to its output unchanged. -/
theorem c10_clusters_partition_input (env : Env) (cfg : ConsolidationCfg)
    (ms : List Memory) :
    List.Perm (((clusterMemories env cfg ms).map (·.memories)).flatten) ms ∧
    (∀ c ∈ clusterMemories env cfg ms, c.memories ≠ []) ∧
    (∀ c ∈ clusterMemories env cfg ms, c.memories.length = 1 →
      c.memories.headI ∈ consolidateMemories env cfg ms) := by
  refine ⟨?_, ?_, ?_⟩
  · have := clusterMemories_flatten_aux env cfg ms []
    simpa [clusterMemories] using this
  · exact fun c hc => clusterMemories_ne_nil_aux env cfg ms []
      (by simp) c hc
  · exact fun c hc hlen =>
      consolidateAux_single_mem env cfg (clusterMemories env cfg ms) 0 c hc hlen

/-- Witness for C10 at a concrete singleton input. -/
theorem c10_clusters_partition_input_witness :
    List.Perm (((clusterMemories (mkEnv 0 1) c3Ccfg [c3MemA]).map
      (·.memories)).flatten) [c3MemA] :=
  (c10_clusters_partition_input (mkEnv 0 1) c3Ccfg [c3MemA]).1

/-! ### C1 -/

/-- Case analysis on `searchTier`'s result length: the cache fast path
yields exactly one memory regardless of `limit`; the vector search yields
at most `limit`. -/
theorem searchTier_length_cases (env : Env) (st : ServiceState)
    (tier : MemoryTierType) (query : String) (limit : ℕ) :
    (searchTier env st tier query limit).length ≤ limit ∨
    (searchTier env st tier query limit).length = 1 := by
  unfold searchTier
  cases tier <;> cases hcg : cacheGet st.cache query <;>
    simp [hcg, List.length_take_le]

/-- The cascade loop never exceeds `limit` once it starts below it. -/
theorem retrieveGo_length_le (env : Env) (st : ServiceState) (query : String)
    (limit : ℕ) :
    ∀ (ts : List MemoryTierType) (acc : List Memory),
    acc.length < limit → (retrieveGo env st query limit ts acc).length ≤ limit
  | [], acc, h => by
    rw [retrieveGo]
    omega
  | t :: ts, acc, h => by
    simp only [retrieveGo]
    by_cases hbr : limit ≤
      (acc ++ searchTier env st t query (limit - acc.length)).length
    · rw [if_pos hbr]
      rcases searchTier_length_cases env st t query (limit - acc.length) with
        hle | h1 <;> (rw [List.length_append]; omega)
    · rw [if_neg hbr]
      have hlt : (acc ++ searchTier env st t query
          (limit - acc.length)).length < limit := Nat.lt_of_not_le hbr
      exact retrieveGo_length_le env st query limit ts _ hlt

/-- C1 (amended): for every query and every `k ≥ 1`, `retrieve` returns at
most `k` memories. `retrieve` takes no owner identifier and applies no
ownership filter (see the counterexample: returned memories can belong to
any user, and with `k = 0` the core-tier cache fast path can still return
one memory). -/
theorem c1_retrieve_at_most_k (env : Env) (st : ServiceState)
    (query : String) (k : ℕ) (hk : 1 ≤ k) :
    (retrieveResults env st query k).length ≤ k ∧
    ∀ res st', retrieve env st query k = .ok (res, st') → res.length ≤ k := by
  have hlen : (retrieveResults env st query k).length ≤ k :=
    retrieveGo_length_le env st query k [.core, .active, .background] []
      (by simp only [List.length_nil]; omega)
  refine ⟨hlen, ?_⟩
  intro res st' h
  simp only [retrieve] at h
  cases hsm : storeMany env
      ((retrieveResults env st query k).map (bumpAccess env)) st with
  | error e =>
    rw [hsm] at h
    simp at h
  | ok st2 =>
    rw [hsm] at h
    simp only [Except.ok.injEq, Prod.mk.injEq] at h
    obtain ⟨hres, _⟩ := h
    rw [← hres, List.length_map]
    exact hlen

/-- A service state whose (id-keyed) cache happens to hold an entry under
the key `"q"`: the state `store` produces after ingesting a core-tier
memory whose id collides with a later query string. -/
def c1CacheState : ServiceState :=
  { coreC := [], activeC := [], backgroundC := [],
    cache := [("q", aliceMemory)], nextUuid := 0 }

/-- C1 counterexample: `retrieve` with `k = 0` still returns one memory
(the core-tier cache fast path ignores the limit), and that memory belongs
to the user `alice` — `retrieve` has no owner parameter and filters
nothing, so for a caller with owner identifier `"bob"` the claim's
owner-equality fails. -/
theorem c1_counterexample :
    (retrieve (mkEnv 0 1) c1CacheState "q" 0).toOption.map
      (fun p => p.1.map (fun m => m.metadata.userId)) =
      some [some "alice"] ∧
    (some "alice" : Option String) ≠ some "bob" := by
  constructor
  · have hres : retrieveResults (mkEnv 0 1) c1CacheState "q" 0 =
        [aliceMemory] := by
      simp [retrieveResults, retrieveGo, searchTier, cacheGet, c1CacheState]
    have hcne : ¬ (bumpAccess (mkEnv 0 1) aliceMemory).content = "" := by
      simp [bumpAccess, aliceMemory]
    have hsm : storeMany (mkEnv 0 1) [bumpAccess (mkEnv 0 1) aliceMemory]
        c1CacheState =
        .ok (storeResultState (mkEnv 0 1) c1CacheState
          (bumpAccess (mkEnv 0 1) aliceMemory)) := by
      simp [storeMany, store, hcne]
    rw [retrieve, hres]
    simp only [List.map_cons, List.map_nil]
    rw [hsm]
    simp [bumpAccess, aliceMemory, Except.toOption]
  · decide

/-- Witness for C1's amended theorem. -/
theorem c1_retrieve_at_most_k_witness :
    1 ≤ 2 ∧ (retrieveResults (mkEnv 0 1) c1CacheState "q" 2).length ≤ 2 :=
  ⟨by omega,
    (c1_retrieve_at_most_k (mkEnv 0 1) c1CacheState "q" 2 (by omega)).1⟩

/-! ### C2 -/

/-- A successful `store` keeps every record already present in every
collection (it only appends). -/
theorem storeResultState_mem (env : Env) (st : ServiceState)
    (memory : Memory) (t : MemoryTierType) (r : Memory)
    (hr : r ∈ getCollection st t) :
    r ∈ getCollection (storeResultState env st memory) t := by
  rw [getCollection_storeResultState]
  exact List.mem_append_left _ hr

/-- A successful run of `updateAccessMetrics`' stores keeps every record
already present in every collection. -/
theorem storeMany_ok_mono (env : Env) :
    ∀ (ms : List Memory) (st st' : ServiceState),
    storeMany env ms st = .ok st' →
    ∀ (t : MemoryTierType) (r : Memory),
    r ∈ getCollection st t → r ∈ getCollection st' t
  | [], st, st', h => by
    simp only [storeMany, Except.ok.injEq] at h
    subst h
    exact fun t r hr => hr
  | m :: ms, st, st', h => by
    intro t r hr
    simp only [storeMany] at h
    cases hs : store env st m with
    | error e =>
      rw [hs] at h
      simp at h
    | ok p =>
      obtain ⟨i, stm⟩ := p
      rw [hs] at h
      have hinv := store_ok_inv env st m i stm hs
      have hr' : r ∈ getCollection stm t := by
        rw [hinv.2.2]
        exact storeResultState_mem env st m t r hr
      exact storeMany_ok_mono env ms stm st' h t r hr'

/-- C2: across a successful `retrieve`, no stored record is removed or
modified — every record of every tier collection before the call is still
present, unchanged, afterwards (so each returned memory's stored
`accessCount` after the retrieve is ≥ — in fact equal to — its value
before); and every returned memory object carries `accessCount` one above
the value the search returned for it. (`updateAccessMetrics` persists the
bump only as a brand-new record under a fresh id with `accessCount` reset
to `0` by `store`; it never lowers any count.) -/
theorem c2_retrieve_access_counts_non_decreasing (env : Env)
    (st : ServiceState) (query : String) (k : ℕ) (res : List Memory)
    (st' : ServiceState) (h : retrieve env st query k = .ok (res, st')) :
    (∀ (t : MemoryTierType), ∀ r ∈ getCollection st t,
      r ∈ getCollection st' t) ∧
    (∀ m' ∈ res, ∃ m ∈ retrieveResults env st query k,
      m' = bumpAccess env m ∧ m'.accessCount = m.accessCount + 1) := by
  simp only [retrieve] at h
  cases hsm : storeMany env
      ((retrieveResults env st query k).map (bumpAccess env)) st with
  | error e =>
    rw [hsm] at h
    simp at h
  | ok st2 =>
    rw [hsm] at h
    simp only [Except.ok.injEq, Prod.mk.injEq] at h
    obtain ⟨hres, hst2⟩ := h
    subst hst2
    constructor
    · intro t r hr
      exact storeMany_ok_mono env _ st _ hsm t r hr
    · intro m' hm'
      rw [← hres] at hm'
      obtain ⟨m, hm, rfl⟩ := List.mem_map.mp hm'
      exact ⟨m, hm, rfl, rfl⟩

/-- A one-record service state holding the `alice` memory in the
background collection. -/
def c2State : ServiceState :=
  { coreC := [], activeC := [], backgroundC := [aliceMemory], cache := [],
    nextUuid := 0 }

/-- Witness for C2: after a concrete successful retrieve over `c2State`,
the pre-existing background record is still present unchanged. -/
theorem c2_retrieve_access_counts_non_decreasing_witness :
    retrieve (mkEnv 0 1) c2State "q" 5 =
      .ok ([bumpAccess (mkEnv 0 1) aliceMemory],
        storeResultState (mkEnv 0 1) c2State
          (bumpAccess (mkEnv 0 1) aliceMemory)) ∧
    aliceMemory ∈ getCollection
      (storeResultState (mkEnv 0 1) c2State
        (bumpAccess (mkEnv 0 1) aliceMemory)) .background := by
  have hres : retrieveResults (mkEnv 0 1) c2State "q" 5 = [aliceMemory] := by
    simp [retrieveResults, retrieveGo, searchTier, cacheGet, c2State,
      getCollection, mkEnv]
  have hcne : ¬ (bumpAccess (mkEnv 0 1) aliceMemory).content = "" := by
    simp [bumpAccess, aliceMemory]
  have hsm : storeMany (mkEnv 0 1) [bumpAccess (mkEnv 0 1) aliceMemory]
      c2State =
      .ok (storeResultState (mkEnv 0 1) c2State
        (bumpAccess (mkEnv 0 1) aliceMemory)) := by
    simp [storeMany, store, hcne]
  have hok : retrieve (mkEnv 0 1) c2State "q" 5 =
      .ok ([bumpAccess (mkEnv 0 1) aliceMemory],
        storeResultState (mkEnv 0 1) c2State
          (bumpAccess (mkEnv 0 1) aliceMemory)) := by
    rw [retrieve, hres]
    simp only [List.map_cons, List.map_nil]
    rw [hsm]
  refine ⟨hok, ?_⟩
  exact (c2_retrieve_access_counts_non_decreasing (mkEnv 0 1) c2State "q" 5
    _ _ hok).1 .background aliceMemory (by simp [c2State, getCollection])

/-- Witness for C8's amended theorem at the counterexample state. -/
theorem c8_optimizeCache_resizes_to_empty_witness :
    (getMetrics c8State .core).hitRate = .val 0 ∧
    ((0 : ℚ) < 1/2 ∧ 100 < (getLru c8State .core).max) ∧
    ((getLru (optimizeCache c8State) .core).max =
        ((⌊(getLru c8State .core).max * (4/5)⌋ : ℤ) : ℚ) ∧
      (getLru (optimizeCache c8State) .core).entries = []) :=
  ⟨rfl, by constructor <;> norm_num [getLru, c8State],
    (c8_optimizeCache_resizes_to_empty c8State .core 0 rfl).1
      (by constructor <;> norm_num [getLru, c8State])⟩

end AivyMemory
